import Mathlib

/-!
Formal model of the pong simulation in `src/src/pong.rs` (bevy-pong).

All scalar arithmetic of the source operates on `f32`; the model uses exact
rationals `ℚ` for the state-level systems (every `f32` value is a rational,
and the operations these systems perform — addition, subtraction, negation,
`min`, `abs`, `signum`, comparisons — are exact on the inputs the claims
quantify over).  The two places where the source normalizes a vector
(`launch_ball` and the paddle-collision branch of `ball_bounce`) involve a
Euclidean length, so their results live in `ℝ × ℝ` with `Real.sqrt`.
-/

namespace Pong

/-- Side tag used by score records and exit-screen events
(`enum Who { PLAYER, OPPONENT }`, src/src/pong.rs line 68). -/
inductive Who where
  | PLAYER : Who
  | OPPONENT : Who
deriving DecidableEq

/-- Two-dimensional vector with exact rational components, modelling the
`Vec2`/`Vec3` values of the source (every entity of the game keeps `z = 0`,
so the third component is dropped). -/
structure V2 where
  x : ℚ
  y : ℚ
deriving DecidableEq

/-- Frame rate constant (src/src/pong.rs line 6, `FRAMERATE = 60.0`). -/
def FRAMERATE : ℚ := 60

/-- Paddle width (line 10, `PADDLE_WIDTH = 12.5`). -/
def PADDLE_WIDTH : ℚ := 12.5

/-- Paddle height (line 11, `PADDLE_HEIGHT = 800.0`). -/
def PADDLE_HEIGHT : ℚ := 800

/-- Player paddle speed (line 12, `5.0 * (120.0 / FRAMERATE)` = 10). -/
def PADDLE_SPEED : ℚ := 5 * (120 / FRAMERATE)

/-- Bot paddle speed cap (line 13, `5.0 * (120.0 / FRAMERATE)` = 10). -/
def BOT_PADDLE_SPEED : ℚ := 5 * (120 / FRAMERATE)

/-- Ball square size (line 14, `BALL_SIZE = 10.0`). -/
def BALL_SIZE : ℚ := 10

/-- Ball speed (line 15, `7.0 * (120.0 / FRAMERATE)` = 14). -/
def BALL_SPEED : ℚ := 7 * (120 / FRAMERATE)

/-- Launch delay in seconds (line 16, `BALL_LAUNCH_TIME = 10.0`). -/
def BALL_LAUNCH_TIME : ℚ := 10

/-- Number of balls per repopulation batch (line 17, `BALLS_AMOUNT = 100000`;
the source stores it as `i64` and later casts to `i32`, both exact). -/
def BALLS_AMOUNT : Int := 100000

/-- The exact value of `f32::MAX`, `(2 - 2⁻²³)·2¹²⁷ = (2²⁴ - 1)·2¹⁰⁴`. -/
def f32MAX : ℚ := (2 ^ 24 - 1) * 2 ^ 104

/-- Model of `f32::signum` restricted to non-NaN inputs: `-1` for negative
arguments and `+1` otherwise (Rust's `signum` returns `1.0` on `0.0`). -/
def signumQ (q : ℚ) : ℚ := if q < 0 then -1 else 1

/-- Squared Euclidean distance between two points.  The source compares the
`f32` lengths `(b.translation - t.translation).length()` of vectors whose
`z` components are `0`; since squaring is strictly monotone on nonnegative
reals, comparing squared distances selects the same ball, and it keeps the
model inside `ℚ`. -/
def dist2 (a b : V2) : ℚ := (a.x - b.x) ^ 2 + (a.y - b.y) ^ 2

/-- One step of the closest-ball scan of `bot_ai` (lines 147-155): keep the
candidate whenever its distance is strictly below the best so far (strict
comparison, so the first-found ball wins ties).  Distances are squared, see
`dist2`. -/
def botStep (p : V2) (best : V2 × ℚ) (b : V2) : V2 × ℚ :=
  if dist2 b p < best.2 then (b, dist2 b p) else best

/-- The closest-ball scan of `bot_ai` (lines 147-155).  The accumulator
starts from the sentinel `ball = Vec3::ONE * f32::MAX`, `dist = f32::MAX`
of the source; the sentinel distance is squared to match `dist2`. -/
def botScan (balls : List V2) (p : V2) : V2 × ℚ :=
  balls.foldl (botStep p) (⟨f32MAX, f32MAX⟩, f32MAX ^ 2)

/-- The bot controller `bot_ai` (lines 140-161) acting on one bot paddle at
position `p` with current velocity `v`: select the closest ball, then set
the vertical velocity to `f32::min(delta.abs(), BOT_PADDLE_SPEED) * sign`
where `delta = ball.y - t.translation.y` and `sign = delta.signum()`.
The horizontal component is untouched. -/
def bot_ai (balls : List V2) (p v : V2) : V2 :=
  ⟨v.x,
   min |(botScan balls p).1.y - p.y| BOT_PADDLE_SPEED
     * signumQ ((botScan balls p).1.y - p.y)⟩

/-- The paddle clamp `paddle_boundaries` (lines 202-216) on the vertical
position `y` of one paddle, where `h = window.height() / 2`: if the top
edge passes `h`, reposition to `h - PADDLE_HEIGHT/2`; otherwise if the
bottom edge passes `-h`, reposition to `-h + PADDLE_HEIGHT/2`. -/
def paddle_boundaries (h y : ℚ) : ℚ :=
  if y + PADDLE_HEIGHT / 2 > h then h - PADDLE_HEIGHT / 2
  else if y - PADDLE_HEIGHT / 2 < -h then -h + PADDLE_HEIGHT / 2
  else y

/-- The vertical-wall check of `ball_bounce` (lines 229-232) on one ball
with position `pos` and velocity `vel`, where `h = window.height() / 2`:
when the top edge passes `h` or the bottom edge passes `-h`, the vertical
velocity is multiplied by `-1` (`v.0.y *= -1.`); the position and the
horizontal velocity are not written. -/
def ball_bounce_wall (h : ℚ) (pos vel : V2) : V2 × V2 :=
  if pos.y + BALL_SIZE / 2 > h ∨ pos.y - BALL_SIZE / 2 < -h
  then (pos, ⟨vel.x, vel.y * (-1)⟩)
  else (pos, vel)

/-- A live ball entity: stable identity plus position and velocity. -/
structure BallEnt where
  id : Nat
  pos : V2
  vel : V2
deriving DecidableEq

/-- The goal-detection predicate of `ball_bounce` (lines 234-235), where
`w = window.width() / 2`: the ball's right edge passes `w` or its left
edge passes `-w`. -/
def goalCrossed (w : ℚ) (b : BallEnt) : Bool :=
  decide (b.pos.x + BALL_SIZE / 2 > w) || decide (b.pos.x - BALL_SIZE / 2 < -w)

/-- The side recorded in an exit-screen event (line 236): `Who::PLAYER`
when the ball is on the negative-`x` (left, player) half, `Who::OPPONENT`
otherwise. -/
def exitSide (b : BallEnt) : Who :=
  if b.pos.x < 0 then Who.PLAYER else Who.OPPONENT

/-- The goal-event emission of `ball_bounce` (lines 234-237) over one tick:
each ball past the left or right boundary sends exactly one
`ExitScreenEvent(entity, side)`. -/
def exitEvents (w : ℚ) (balls : List BallEnt) : List (Nat × Who) :=
  balls.filterMap fun b => if goalCrossed w b then some (b.id, exitSide b) else none

/-- One score record: side tag, counter, and the displayed text
(`Score(Who, i32)` plus the `Text` component, lines 62 and 170-181). -/
structure ScoreRec where
  who : Who
  count : Int
  text : String
deriving DecidableEq

/-- Model of Rust's `i32 → i16` `try_into`: succeeds exactly on the
`i16` range `[-32768, 32767]`. -/
def tryIntoI16 (n : Int) : Option Int :=
  if -32768 ≤ n ∧ n ≤ 32767 then some n else none

/-- The displayed text for a score counter (lines 314-316 and 328):
`s.1.try_into().unwrap_or_default()` stringified — the score itself when it
fits in `i16`, the default `0` otherwise. -/
def scoreText (n : Int) : String := toString ((tryIntoI16 n).getD 0)

/-- The opposite side (the `match` of lines 320-323). -/
def opposite : Who → Who
  | Who.PLAYER => Who.OPPONENT
  | Who.OPPONENT => Who.PLAYER

/-- The inner score-mutation loop of `update_score` (lines 325-330) for one
event with breached side `side`: a record is incremented exactly when its
tag equals the event's side (`if s.0 == e.1`), and its text is refreshed
from the incremented count. -/
def bumpScore (side : Who) (s : ScoreRec) : ScoreRec :=
  if s.who = side
  then { who := s.who, count := s.count + 1, text := scoreText (s.count + 1) }
  else s

/-- The system `update_score` (lines 308-334): fold over the tick's
exit-screen events; for each, compute `result` as the opposite of the
breached side, mutate the score records via `bumpScore`, and append
`ScoreEvent(result)` to the outgoing event list. -/
def update_score (scores : List ScoreRec) (events : List (Nat × Who)) :
    List ScoreRec × List Who :=
  events.foldl
    (fun acc e => (acc.1.map (bumpScore e.2), acc.2 ++ [opposite e.2]))
    (scores, [])

/-- The system `remove_off_screen_balls` (lines 336-345): despawn the
entity named in each event and decrement `BallCount` once per event. -/
def remove_off_screen_balls (events : List (Nat × Who)) (balls : List BallEnt)
    (count : Int) : List BallEnt × Int :=
  (balls.filter fun b => events.all fun e => e.1 != b.id,
   count - events.length)

/-- A one-shot countdown (`LaunchTimer`, line 63): configured duration and
elapsed time.  `Timer::reset` zeroes the elapsed time, restoring the full
configured duration of remaining countdown. -/
structure Timer where
  duration : ℚ
  elapsed : ℚ
deriving DecidableEq

/-- Model of bevy's `Timer::reset` (used at line 296). -/
def timerReset (t : Timer) : Timer := { duration := t.duration, elapsed := 0 }

/-- Run-criteria outcome (`bevy::ecs::schedule::ShouldRun`). -/
inductive ShouldRun where
  | Yes : ShouldRun
  | No : ShouldRun
deriving DecidableEq

/-- The run criterion `should_spawn_balls` (lines 347-352): run exactly
when `BallCount` is zero. -/
def should_spawn_balls (ballCount : Int) : ShouldRun :=
  if ballCount = 0 then ShouldRun.Yes else ShouldRun.No

/-- The spawn loop of `spawn_ball` (lines 288-294): `n` fresh balls, each
cloned from the ball template (position `tpl`) with default-initialized
velocity `(0,0)`.  Fresh entity identities are modelled as `0, 1, …`. -/
def spawnBatch (tpl : V2) (n : Nat) : List BallEnt :=
  (List.range n).map fun i => { id := i, pos := tpl, vel := ⟨0, 0⟩ }

/-- The system `spawn_ball` (lines 282-298): spawn `BALLS_AMOUNT` fresh
balls from the template, reset the launch timer, and set `BallCount` to
`BALLS_AMOUNT as i32`. -/
def spawn_ball (tpl : V2) (t : Timer) : List BallEnt × Timer × Int :=
  (spawnBatch tpl 100000, timerReset t, BALLS_AMOUNT)

/-- Euclidean norm of a real 2-vector, used to state the exact-speed
claims about the two normalizing branches of the source. -/
noncomputable def normR (v : ℝ × ℝ) : ℝ := Real.sqrt (v.1 ^ 2 + v.2 ^ 2)

/-- The velocity assigned by `launch_ball` (lines 128-138) for one random
draw `(x, y)` with `x = (gen() - 0.5) * 2 ∈ [-1, 1)` and
`y = gen() - 0.5 ∈ [-0.5, 0.5)`: `Vec2::new(x, y).normalize() * BALL_SPEED`,
each component divided by the Euclidean length and scaled by `BALL_SPEED`.
Draws are `f32` values and hence rationals; the normalized result lives in
`ℝ`. -/
noncomputable def launch_ball_vel (x y : ℚ) : ℝ × ℝ :=
  ((x : ℝ) / Real.sqrt ((x : ℝ) ^ 2 + (y : ℝ) ^ 2) * (BALL_SPEED : ℝ),
   (y : ℝ) / Real.sqrt ((x : ℝ) ^ 2 + (y : ℝ) ^ 2) * (BALL_SPEED : ℝ))

/-- The axis-aligned bounding-box overlap test of the paddle branch of
`ball_bounce` (lines 240-243): centers compared with the ball half-size
and the paddle half-width/half-height, all four inequalities strict. -/
def paddleOverlap (b p : V2) : Prop :=
  b.x - BALL_SIZE / 2 < p.x + PADDLE_WIDTH / 2 ∧
  b.x + BALL_SIZE / 2 > p.x - PADDLE_WIDTH / 2 ∧
  b.y - BALL_SIZE / 2 < p.y + PADDLE_HEIGHT / 2 ∧
  b.y + BALL_SIZE / 2 > p.y - PADDLE_HEIGHT / 2

instance (b p : V2) : Decidable (paddleOverlap b p) := by
  unfold paddleOverlap
  infer_instance

/-- The bounce velocity of the paddle branch of `ball_bounce` (lines
245-246): `(t.translation - pt.translation).normalize() * BALL_SPEED`,
truncated back to two dimensions (every entity keeps `z = 0`). -/
noncomputable def paddle_bounce_vel (b p : V2) : ℝ × ℝ :=
  (((b.x - p.x : ℚ) : ℝ)
      / Real.sqrt (((b.x - p.x : ℚ) : ℝ) ^ 2 + ((b.y - p.y : ℚ) : ℝ) ^ 2)
      * (BALL_SPEED : ℝ),
   ((b.y - p.y : ℚ) : ℝ)
      / Real.sqrt (((b.x - p.x : ℚ) : ℝ) ^ 2 + ((b.y - p.y : ℚ) : ℝ) ^ 2)
      * (BALL_SPEED : ℝ))

/-- The per-paddle collision step of `ball_bounce` (lines 239-248): on
overlap the ball's velocity is recomputed from the center-to-center
direction; otherwise this paddle leaves it untouched. -/
noncomputable def ball_bounce_paddle (b p : V2) (v : ℝ × ℝ) : ℝ × ℝ :=
  if paddleOverlap b p then paddle_bounce_vel b p else v

/-- A tiny concrete list of ball positions (one 20 above the origin, one 8
above) used to exercise the bot-tracking theorem at a concrete input. -/
def demoTargets : List V2 := [⟨0, 20⟩, ⟨0, 8⟩]

/-- A tiny concrete ball store (one ball past the left boundary of a
800-wide playfield, one ball mid-field) used to exercise the lifecycle
theorems at a concrete input. -/
def demoBalls : List BallEnt := [⟨1, ⟨-406, 0⟩, ⟨0, 0⟩⟩, ⟨2, ⟨20, 0⟩, ⟨0, 0⟩⟩]

/-- Length of a spawned batch. -/
theorem spawnBatch_length (tpl : V2) (n : Nat) : (spawnBatch tpl n).length = n := by
  simp [spawnBatch]

/-- Every ball of a spawned batch sits at the template position with zero
velocity. -/
theorem spawnBatch_mem (tpl : V2) (n : Nat) :
    ∀ b ∈ spawnBatch tpl n, b.pos = tpl ∧ b.vel = ⟨0, 0⟩ := by
  intro b hb
  simp only [spawnBatch, List.mem_map, List.mem_range] at hb
  obtain ⟨i, hi, rfl⟩ := hb
  exact ⟨rfl, rfl⟩

/-- The ball list produced by `spawn_ball` is the batch of 100000. -/
theorem spawn_ball_fst (tpl : V2) (t : Timer) :
    (spawn_ball tpl t).1 = spawnBatch tpl 100000 := by
  simp only [spawn_ball]

/-- The goal events are exactly one event per crossing ball, in store
order. -/
theorem exitEvents_eq (w : ℚ) (balls : List BallEnt) :
    exitEvents w balls
      = (balls.filter fun b => goalCrossed w b).map fun b => (b.id, exitSide b) := by
  induction balls with
  | nil => rfl
  | cons b t ih =>
    simp only [exitEvents] at ih
    simp only [exitEvents, List.filterMap_cons, List.filter_cons]
    cases hb : goalCrossed w b with
    | true => simp [hb, ih]
    | false => simp [hb, ih]

/-- Splitting a list by a Boolean predicate preserves total length. -/
theorem length_filter_split (p : BallEnt → Bool) (l : List BallEnt) :
    (l.filter p).length + (l.filter fun b => !(p b)).length = l.length := by
  induction l with
  | nil => rfl
  | cons b t ih =>
    cases hb : p b <;> simp [List.filter_cons, hb] <;> omega

/-- Under distinct ball identities, despawning the balls named by the
tick's goal events removes exactly the crossing balls. -/
theorem remove_filter_eq (w : ℚ) (balls : List BallEnt)
    (hids : (balls.map BallEnt.id).Nodup) :
    (balls.filter fun b => (exitEvents w balls).all fun e => e.1 != b.id)
      = balls.filter fun b => !(goalCrossed w b) := by
  apply List.filter_congr
  intro b hbmem
  rw [exitEvents_eq]
  cases hb : goalCrossed w b with
  | true =>
    have hbf : b ∈ balls.filter fun x => goalCrossed w x :=
      List.mem_filter.mpr ⟨hbmem, hb⟩
    have hbev : (b.id, exitSide b)
        ∈ (balls.filter fun x => goalCrossed w x).map fun x => (x.id, exitSide x) :=
      List.mem_map_of_mem _ hbf
    cases hall : ((balls.filter fun x => goalCrossed w x).map
        fun x => (x.id, exitSide x)).all fun e => e.1 != b.id with
    | true =>
      have := List.all_eq_true.mp hall _ hbev
      simp at this
    | false => rfl
  | false =>
    simp only [Bool.not_false]
    rw [List.all_eq_true]
    intro e he
    obtain ⟨x, hx, rfl⟩ := List.mem_map.mp he
    have hxmem := (List.mem_filter.mp hx).1
    have hxcross := (List.mem_filter.mp hx).2
    simp only [bne_iff_ne, ne_eq]
    intro hid
    have hxb : x = b := List.inj_on_of_nodup_map hids hxmem hbmem hid
    rw [hxb] at hxcross
    rw [hxcross] at hb
    simp at hb

/-- C5: when a ball's top edge exceeds the upper boundary or its bottom
edge exceeds the lower boundary, the wall check of `ball_bounce` flips the
sign of the vertical velocity only: `|vy|` is preserved (entering with
`vy = s` leaves with `vy = -s`), and the horizontal velocity and the
position are unchanged by this check. -/
theorem C5_wall_bounce (h : ℚ) (pos vel : V2)
    (hcross : pos.y + BALL_SIZE / 2 > h ∨ pos.y - BALL_SIZE / 2 < -h) :
    (ball_bounce_wall h pos vel).1 = pos ∧
    (ball_bounce_wall h pos vel).2.x = vel.x ∧
    (ball_bounce_wall h pos vel).2.y = -vel.y ∧
    |(ball_bounce_wall h pos vel).2.y| = |vel.y| := by
  have hb : ball_bounce_wall h pos vel = (pos, ⟨vel.x, vel.y * (-1)⟩) := by
    rw [ball_bounce_wall, if_pos hcross]
  rw [hb]
  refine ⟨rfl, rfl, by show vel.y * (-1) = -vel.y; ring, ?_⟩
  show |vel.y * (-1)| = |vel.y|
  rw [show vel.y * (-1) = -vel.y by ring, abs_neg]

/-- Witness for C5 on a ball at height 396 crossing the upper bound 400
with velocity (2, 3): the check returns velocity (2, -3) and leaves the
position alone. -/
theorem C5_wall_bounce_witness :
    ((396 : ℚ) + BALL_SIZE / 2 > 400 ∨ (396 : ℚ) - BALL_SIZE / 2 < -400) ∧
    ((ball_bounce_wall 400 ⟨0, 396⟩ ⟨2, 3⟩).1 = ⟨0, 396⟩ ∧
     (ball_bounce_wall 400 ⟨0, 396⟩ ⟨2, 3⟩).2.x = 2 ∧
     (ball_bounce_wall 400 ⟨0, 396⟩ ⟨2, 3⟩).2.y = -3 ∧
     |(ball_bounce_wall 400 ⟨0, 396⟩ ⟨2, 3⟩).2.y| = |(3 : ℚ)|) :=
  ⟨by norm_num [BALL_SIZE],
   C5_wall_bounce 400 ⟨0, 396⟩ ⟨2, 3⟩ (by norm_num [BALL_SIZE])⟩

/-- C7: the repopulate action runs exactly when `BallCount = 0`, and its
postcondition holds: exactly `BALLS_AMOUNT = 100000` new balls are created,
each at the template position with zero velocity; the launch timer is reset
to its full configured duration (elapsed time zeroed, duration kept); and
`BallCount` is set to the batch size. -/
theorem C7_repopulate (c : Int) (tpl : V2) (t : Timer) :
    (should_spawn_balls c = ShouldRun.Yes ↔ c = 0) ∧
    ((spawn_ball tpl t).1.length : Int) = BALLS_AMOUNT ∧
    BALLS_AMOUNT = 100000 ∧
    (∀ b ∈ (spawn_ball tpl t).1, b.pos = tpl ∧ b.vel = ⟨0, 0⟩) ∧
    (spawn_ball tpl t).2.1 = { duration := t.duration, elapsed := 0 } ∧
    (spawn_ball tpl t).2.2 = BALLS_AMOUNT := by
  refine ⟨?_, ?_, rfl, ?_, rfl, rfl⟩
  · constructor
    · intro hy
      by_contra hc
      simp [should_spawn_balls, hc] at hy
    · intro hc
      simp [should_spawn_balls, hc]
  · have h1 : (spawn_ball tpl t).1 = spawnBatch tpl 100000 := by
      simp only [spawn_ball]
    rw [h1]
    simp only [spawnBatch, List.length_map, List.length_range, BALLS_AMOUNT]
    norm_num
  · intro b hb
    have h1 : (spawn_ball tpl t).1 = spawnBatch tpl 100000 := by
      simp only [spawn_ball]
    rw [h1] at hb
    simp only [spawnBatch, List.mem_map, List.mem_range] at hb
    obtain ⟨i, hi, rfl⟩ := hb
    exact ⟨rfl, rfl⟩

/-- Witness for C7 at ball count 0, template position (0,0) and a timer
with 3 seconds elapsed: the run criterion fires, the timer is reset and the
count is set to the batch size. -/
theorem C7_repopulate_witness :
    should_spawn_balls 0 = ShouldRun.Yes ∧
    (spawn_ball ⟨0, 0⟩ ⟨BALL_LAUNCH_TIME, 3⟩).2.1
      = { duration := BALL_LAUNCH_TIME, elapsed := 0 } ∧
    (spawn_ball ⟨0, 0⟩ ⟨BALL_LAUNCH_TIME, 3⟩).2.2 = BALLS_AMOUNT :=
  ⟨(C7_repopulate 0 ⟨0, 0⟩ ⟨BALL_LAUNCH_TIME, 3⟩).1.mpr rfl,
   (C7_repopulate 0 ⟨0, 0⟩ ⟨BALL_LAUNCH_TIME, 3⟩).2.2.2.2.1,
   (C7_repopulate 0 ⟨0, 0⟩ ⟨BALL_LAUNCH_TIME, 3⟩).2.2.2.2.2⟩

/-- C8: after the boundary clamp, an edge that exceeded the vertical bound
sits exactly on the bound; whenever the paddle fits the playfield
(`PADDLE_HEIGHT ≤ 2h`) no edge ends beyond a bound; and in the degenerate
case where the paddle height equals the playfield height (`h` equals
`PADDLE_HEIGHT / 2`) the clamp collapses any offset to exactly zero. -/
theorem C8_paddle_clamp (h y : ℚ) :
    (y + PADDLE_HEIGHT / 2 > h → paddle_boundaries h y + PADDLE_HEIGHT / 2 = h) ∧
    (¬(y + PADDLE_HEIGHT / 2 > h) → y - PADDLE_HEIGHT / 2 < -h →
      paddle_boundaries h y - PADDLE_HEIGHT / 2 = -h) ∧
    (h = PADDLE_HEIGHT / 2 → paddle_boundaries h y = 0) ∧
    (PADDLE_HEIGHT ≤ 2 * h →
      paddle_boundaries h y + PADDLE_HEIGHT / 2 ≤ h ∧
      -h ≤ paddle_boundaries h y - PADDLE_HEIGHT / 2) := by
  unfold paddle_boundaries
  refine ⟨?_, ?_, ?_, ?_⟩
  · intro htop
    rw [if_pos htop]
    ring
  · intro htop hbot
    rw [if_neg htop, if_pos hbot]
    ring
  · intro hh
    subst hh
    split
    · ring
    · split
      · ring
      · rename_i h1 h2
        have hy1 : y ≤ 0 := by linarith [not_lt.mp h1]
        have hy2 : 0 ≤ y := by linarith [not_lt.mp h2]
        linarith
  · intro hH
    split
    · constructor <;> linarith
    · split
      · constructor <;> linarith
      · rename_i h1 h2
        constructor <;> linarith [not_lt.mp h1, not_lt.mp h2]

/-- Witness for C8: the degenerate half-height 400 (playfield height 800,
equal to the paddle height) collapses offset 7 to center 0, and a
half-height of 100 puts the exceeded top edge exactly on the bound. -/
theorem C8_paddle_clamp_witness :
    paddle_boundaries 400 7 = 0 ∧
    paddle_boundaries 100 0 + PADDLE_HEIGHT / 2 = 100 :=
  ⟨(C8_paddle_clamp 400 7).2.2.1 (by norm_num [PADDLE_HEIGHT]),
   (C8_paddle_clamp 100 0).1 (by norm_num [PADDLE_HEIGHT])⟩

/-- C9: converting a score count to display text falls back to the default
value 0 (displayed as "0") when the count does not fit the displayable
`i16` range, and otherwise displays the stringified score. -/
theorem C9_score_display (n : Int) :
    (-32768 ≤ n ∧ n ≤ 32767 → scoreText n = toString n) ∧
    (n < -32768 ∨ 32767 < n → scoreText n = "0") := by
  constructor
  · intro hr
    simp [scoreText, tryIntoI16, hr.1, hr.2]
  · intro hr
    have hn : ¬(-32768 ≤ n ∧ n ≤ 32767) := by
      rcases hr with hlt | hgt
      · intro hc
        linarith [hc.1]
      · intro hc
        linarith [hc.2]
    simp [scoreText, tryIntoI16, hn]
    rfl

/-- Witness for C9: score 5 displays as "5"; score 40000 overflows `i16`
and displays the default "0". -/
theorem C9_score_display_witness :
    scoreText 5 = toString (5 : Int) ∧ scoreText 40000 = "0" :=
  ⟨(C9_score_display 5).1 (by decide), (C9_score_display 40000).2 (by decide)⟩

/-- C1 names the divergence of `update_score` from the claim: a ball at
x = -406 crosses the left boundary of a width-800 playfield and emits
exactly one event with breached side `PLAYER`; processing that event
increments the PLAYER record (the side tested by `if s.0 == e.1`) to 1 and
leaves OPPONENT at 0, even though the outgoing `ScoreEvent` carries
`OPPONENT` as the scoring side; the despawn consumer removes the ball and
decrements the count by exactly 1.  The claim (and the spec) require the
OPPONENT counter to increase instead. -/
theorem C1_score_side_bug :
    exitEvents 400 [⟨7, ⟨-406, 0⟩, ⟨-14, 0⟩⟩] = [(7, Who.PLAYER)] ∧
    (update_score [⟨Who.PLAYER, 0, "0"⟩, ⟨Who.OPPONENT, 0, "0"⟩] [(7, Who.PLAYER)]).1
      = [⟨Who.PLAYER, 1, "1"⟩, ⟨Who.OPPONENT, 0, "0"⟩] ∧
    (update_score [⟨Who.PLAYER, 0, "0"⟩, ⟨Who.OPPONENT, 0, "0"⟩] [(7, Who.PLAYER)]).2
      = [Who.OPPONENT] ∧
    remove_off_screen_balls [(7, Who.PLAYER)] [⟨7, ⟨-406, 0⟩, ⟨-14, 0⟩⟩] 1 = ([], 0) := by
  refine ⟨?_, ?_, ?_, ?_⟩
  · norm_num [exitEvents, goalCrossed, exitSide, BALL_SIZE, List.filterMap_cons]
  · decide
  · decide
  · decide

/-- C10: outside the same-tick despawn/decrement transaction the counter
matches the live ball population: given distinct ball identities and a
counter equal to the store size, the despawn consumer leaves the counter
equal to the new store size, decrementing once per event; the tick's
events name pairwise distinct balls, each of which is gone from the store
afterwards; and repopulation sets the counter to exactly the number of
balls it creates. -/
theorem C10_ballcount_invariant (w : ℚ) (balls : List BallEnt) (count : Int)
    (tpl : V2) (t : Timer)
    (hids : (balls.map BallEnt.id).Nodup)
    (hinv : count = balls.length) :
    (remove_off_screen_balls (exitEvents w balls) balls count).2
      = ((remove_off_screen_balls (exitEvents w balls) balls count).1.length : Int) ∧
    (remove_off_screen_balls (exitEvents w balls) balls count).2
      = count - ((exitEvents w balls).length : Int) ∧
    ((exitEvents w balls).map Prod.fst).Nodup ∧
    (∀ e ∈ exitEvents w balls,
      ∀ b ∈ (remove_off_screen_balls (exitEvents w balls) balls count).1, b.id ≠ e.1) ∧
    (spawn_ball tpl t).2.2 = ((spawn_ball tpl t).1.length : Int) := by
  have h1 : (remove_off_screen_balls (exitEvents w balls) balls count).1
      = balls.filter fun b => !(goalCrossed w b) := by
    simp only [remove_off_screen_balls]
    exact remove_filter_eq w balls hids
  have h2 : (remove_off_screen_balls (exitEvents w balls) balls count).2
      = count - ((exitEvents w balls).length : Int) := by
    simp only [remove_off_screen_balls]
  have hlen : (exitEvents w balls).length
      = (balls.filter fun b => goalCrossed w b).length := by
    rw [exitEvents_eq, List.length_map]
  have hsplit := length_filter_split (fun b => goalCrossed w b) balls
  refine ⟨?_, h2, ?_, ?_, ?_⟩
  · rw [h1, h2, hinv, hlen]
    omega
  · have hev : (exitEvents w balls).map Prod.fst
        = (balls.filter fun b => goalCrossed w b).map BallEnt.id := by
      rw [exitEvents_eq, List.map_map]
      rfl
    rw [hev]
    exact hids.sublist ((List.filter_sublist balls).map BallEnt.id)
  · intro e he b hb
    have hbf : b ∈ balls.filter
        fun x => (exitEvents w balls).all fun ev => ev.1 != x.id := by
      simpa only [remove_off_screen_balls] using hb
    have hall := (List.mem_filter.mp hbf).2
    have hne := List.all_eq_true.mp hall e he
    simp only [bne_iff_ne, ne_eq] at hne
    exact fun hc => hne hc.symm
  · rw [spawn_ball_fst, spawnBatch_length]
    simp only [spawn_ball]
    norm_num [BALLS_AMOUNT]

/-- Witness for C10 on the two-ball demo store with counter 2: the
hypotheses hold and the invariant facts follow. -/
theorem C10_ballcount_invariant_witness :
    ((demoBalls.map BallEnt.id).Nodup ∧ (2 : Int) = demoBalls.length) ∧
    ((remove_off_screen_balls (exitEvents 400 demoBalls) demoBalls 2).2
       = ((remove_off_screen_balls (exitEvents 400 demoBalls) demoBalls 2).1.length : Int) ∧
     (remove_off_screen_balls (exitEvents 400 demoBalls) demoBalls 2).2
       = 2 - ((exitEvents 400 demoBalls).length : Int) ∧
     ((exitEvents 400 demoBalls).map Prod.fst).Nodup ∧
     (∀ e ∈ exitEvents 400 demoBalls,
       ∀ b ∈ (remove_off_screen_balls (exitEvents 400 demoBalls) demoBalls 2).1, b.id ≠ e.1) ∧
     (spawn_ball ⟨0, 0⟩ ⟨BALL_LAUNCH_TIME, 0⟩).2.2
       = ((spawn_ball ⟨0, 0⟩ ⟨BALL_LAUNCH_TIME, 0⟩).1.length : Int)) :=
  ⟨⟨by decide, by decide⟩,
   C10_ballcount_invariant 400 demoBalls 2 ⟨0, 0⟩ ⟨BALL_LAUNCH_TIME, 0⟩
     (by decide) (by decide)⟩

/-- Characterization of the closest-ball fold of `bot_ai`: either no list
element strictly beats the initial best and the accumulator survives with
every element at least as far, or the result is the first element
attaining the final (strictly improved) best squared distance — everything
before it is strictly farther, everything after it no closer. -/
theorem botScan_go (p : V2) (l : List V2) (acc : V2 × ℚ) :
    (List.foldl (botStep p) acc l = acc ∧ ∀ b ∈ l, acc.2 ≤ dist2 b p) ∨
    (∃ l1 l2, l = l1 ++ (List.foldl (botStep p) acc l).1 :: l2 ∧
      (List.foldl (botStep p) acc l).2 = dist2 (List.foldl (botStep p) acc l).1 p ∧
      (List.foldl (botStep p) acc l).2 < acc.2 ∧
      (∀ b ∈ l1, (List.foldl (botStep p) acc l).2 < dist2 b p) ∧
      (∀ b ∈ l2, (List.foldl (botStep p) acc l).2 ≤ dist2 b p)) := by
  induction l generalizing acc with
  | nil =>
    left
    refine ⟨rfl, ?_⟩
    intro b hb
    cases hb
  | cons b t ih =>
    rw [List.foldl_cons]
    by_cases hd : dist2 b p < acc.2
    · have hstep : botStep p acc b = (b, dist2 b p) := by
        simp [botStep, hd]
      rw [hstep]
      rcases ih (b, dist2 b p) with ⟨heq, hall⟩ | ⟨l1, l2, hsplit, hval, hlt, hl1, hl2⟩
      · right
        refine ⟨[], t, ?_, ?_, ?_, ?_, ?_⟩
        · simp [heq]
        · simp [heq]
        · simpa [heq] using hd
        · intro x hx
          cases hx
        · intro x hx
          simpa [heq] using hall x hx
      · right
        refine ⟨b :: l1, l2, ?_, hval, lt_trans hlt hd, ?_, hl2⟩
        · rw [List.cons_append, ← hsplit]
        · intro x hx
          rcases List.mem_cons.mp hx with rfl | hx2
          · exact hlt
          · exact hl1 x hx2
    · have hstep : botStep p acc b = acc := by
        simp [botStep, hd]
      rw [hstep]
      have hble : acc.2 ≤ dist2 b p := not_lt.mp hd
      rcases ih acc with ⟨heq, hall⟩ | ⟨l1, l2, hsplit, hval, hlt, hl1, hl2⟩
      · left
        refine ⟨heq, ?_⟩
        intro x hx
        rcases List.mem_cons.mp hx with rfl | hx2
        · exact hble
        · exact hall x hx2
      · right
        refine ⟨b :: l1, l2, ?_, hval, hlt, ?_, hl2⟩
        · rw [List.cons_append, ← hsplit]
        · intro x hx
          rcases List.mem_cons.mp hx with rfl | hx2
          · exact lt_of_lt_of_le hlt hble
          · exact hl1 x hx2

/-- With no live ball, the sentinel initialization of the scan survives
and the bot paddle's vertical velocity is overwritten with
`+BOT_PADDLE_SPEED` (for any paddle at least `BOT_PADDLE_SPEED` below the
sentinel height `f32::MAX`). -/
theorem bot_ai_empty (p v : V2) (hp : p.y ≤ f32MAX - BOT_PADDLE_SPEED) :
    bot_ai [] p v = ⟨v.x, BOT_PADDLE_SPEED⟩ := by
  have hB : (0 : ℚ) < BOT_PADDLE_SPEED := by norm_num [BOT_PADDLE_SPEED, FRAMERATE]
  have hd0 : BOT_PADDLE_SPEED ≤ f32MAX - p.y := by linarith
  have hdelta : (botScan [] p).1.y - p.y = f32MAX - p.y := rfl
  show (⟨v.x, min |(botScan [] p).1.y - p.y| BOT_PADDLE_SPEED
      * signumQ ((botScan [] p).1.y - p.y)⟩ : V2) = _
  rw [hdelta]
  have hpos : (0 : ℚ) < f32MAX - p.y := lt_of_lt_of_le hB hd0
  rw [abs_of_pos hpos, signumQ, if_neg (not_lt.mpr hpos.le), mul_one, min_eq_right hd0]

/-- Counterexample to C2: running the bot controller with zero live balls
on a centered paddle with velocity (0,0) does not leave the velocity
unchanged — it is overwritten with vertical speed `+BOT_PADDLE_SPEED`,
because the sentinel target `(f32::MAX, f32::MAX, f32::MAX)` survives the
scan. -/
theorem C2_bot_overwrites_velocity :
    bot_ai [] ⟨0, 0⟩ ⟨0, 0⟩ = ⟨0, BOT_PADDLE_SPEED⟩ ∧
    bot_ai [] ⟨0, 0⟩ ⟨0, 0⟩ ≠ ⟨0, 0⟩ := by
  have h := bot_ai_empty ⟨0, 0⟩ ⟨0, 0⟩
    (by norm_num [f32MAX, BOT_PADDLE_SPEED, FRAMERATE])
  refine ⟨h, ?_⟩
  rw [h]
  intro hc
  have hy := congrArg V2.y hc
  norm_num [BOT_PADDLE_SPEED, FRAMERATE] at hy

/-- C2 amended: when the bot controller runs with zero live balls, the
sentinel initialization acts as a phantom target far above the paddle, so
the controller sets the bot paddle's vertical velocity to
`+BOT_PADDLE_SPEED` (it does not leave the velocity unchanged); the
horizontal component is untouched. -/
theorem C2_bot_no_balls_amended (p v : V2)
    (hp : p.y ≤ f32MAX - BOT_PADDLE_SPEED) :
    bot_ai [] p v = ⟨v.x, BOT_PADDLE_SPEED⟩ :=
  bot_ai_empty p v hp

/-- C6: with at least one live ball, each closer to the paddle than the
sentinel distance `f32::MAX`, the bot selects the ball with minimum
Euclidean distance — ties broken by the first found in iteration order —
and sets its vertical velocity to
`min(|ball.y - paddle.y|, BOT_PADDLE_SPEED) * sign(ball.y - paddle.y)`,
leaving the horizontal component; for a nearest ball above at vertical
distance `d` this is the cap `BOT_PADDLE_SPEED` when `d` exceeds the cap
and exactly `d` otherwise. -/
theorem C6_bot_tracking (balls : List V2) (p v : V2)
    (hne : balls ≠ [])
    (hdist : ∀ b ∈ balls, dist2 b p < f32MAX ^ 2) :
    (∃ l1 l2, balls = l1 ++ (botScan balls p).1 :: l2 ∧
      ∀ b ∈ l1, dist2 (botScan balls p).1 p < dist2 b p) ∧
    (botScan balls p).2 = dist2 (botScan balls p).1 p ∧
    (∀ b ∈ balls, dist2 (botScan balls p).1 p ≤ dist2 b p) ∧
    (bot_ai balls p v).x = v.x ∧
    (bot_ai balls p v).y
      = min |(botScan balls p).1.y - p.y| BOT_PADDLE_SPEED
          * signumQ ((botScan balls p).1.y - p.y) ∧
    (0 < (botScan balls p).1.y - p.y →
      (BOT_PADDLE_SPEED < (botScan balls p).1.y - p.y →
        (bot_ai balls p v).y = BOT_PADDLE_SPEED) ∧
      ((botScan balls p).1.y - p.y ≤ BOT_PADDLE_SPEED →
        (bot_ai balls p v).y = (botScan balls p).1.y - p.y)) := by
  have hscan : botScan balls p
      = List.foldl (botStep p) (⟨f32MAX, f32MAX⟩, f32MAX ^ 2) balls := rfl
  rcases botScan_go p balls (⟨f32MAX, f32MAX⟩, f32MAX ^ 2) with
    ⟨heq, hall⟩ | ⟨l1, l2, hsplit, hval, hlt, hl1, hl2⟩
  · exfalso
    obtain ⟨b0, t0, rfl⟩ : ∃ b0 t0, balls = b0 :: t0 := by
      cases balls with
      | nil => exact absurd rfl hne
      | cons a t => exact ⟨a, t, rfl⟩
    have h1 : f32MAX ^ 2 ≤ dist2 b0 p := hall b0 (List.mem_cons_self b0 t0)
    exact absurd (hdist b0 (List.mem_cons_self b0 t0)) (not_lt.mpr h1)
  · rw [← hscan] at hsplit hval hlt hl1 hl2
    refine ⟨⟨l1, l2, hsplit, fun b hb => hval ▸ hl1 b hb⟩, hval, ?_, rfl, rfl, ?_⟩
    · intro b hb
      rw [hsplit] at hb
      rcases List.mem_append.mp hb with hb1 | hb2
      · exact le_of_lt (hval ▸ hl1 b hb1)
      · rcases List.mem_cons.mp hb2 with rfl | hb3
        · exact le_refl _
        · exact hval ▸ hl2 b hb3
    · intro hpos
      have hsig : signumQ ((botScan balls p).1.y - p.y) = 1 := by
        simp only [signumQ]
        rw [if_neg (not_lt.mpr hpos.le)]
      have habs : |(botScan balls p).1.y - p.y| = (botScan balls p).1.y - p.y :=
        abs_of_pos hpos
      constructor
      · intro hcap
        show min |(botScan balls p).1.y - p.y| BOT_PADDLE_SPEED
            * signumQ ((botScan balls p).1.y - p.y) = BOT_PADDLE_SPEED
        rw [habs, hsig, mul_one, min_eq_right hcap.le]
      · intro hle
        show min |(botScan balls p).1.y - p.y| BOT_PADDLE_SPEED
            * signumQ ((botScan balls p).1.y - p.y)
          = (botScan balls p).1.y - p.y
        rw [habs, hsig, mul_one, min_eq_left hle]

/-- Witness for C6 on two balls 20 and 8 above a centered paddle: the
hypotheses hold, the selected ball is no farther than either, and the
vertical velocity follows the min-capped tracking formula. -/
theorem C6_bot_tracking_witness :
    (demoTargets ≠ [] ∧ ∀ b ∈ demoTargets, dist2 b ⟨0, 0⟩ < f32MAX ^ 2) ∧
    (∀ b ∈ demoTargets,
      dist2 (botScan demoTargets ⟨0, 0⟩).1 ⟨0, 0⟩ ≤ dist2 b ⟨0, 0⟩) ∧
    (bot_ai demoTargets ⟨0, 0⟩ ⟨0, 0⟩).y
      = min |(botScan demoTargets ⟨0, 0⟩).1.y - (⟨0, 0⟩ : V2).y| BOT_PADDLE_SPEED
          * signumQ ((botScan demoTargets ⟨0, 0⟩).1.y - (⟨0, 0⟩ : V2).y) := by
  have hne : demoTargets ≠ [] := by simp [demoTargets]
  have hdist : ∀ b ∈ demoTargets, dist2 b ⟨0, 0⟩ < f32MAX ^ 2 := by
    intro b hb
    fin_cases hb <;> norm_num [dist2, f32MAX]
  have h := C6_bot_tracking demoTargets ⟨0, 0⟩ ⟨0, 0⟩ hne hdist
  exact ⟨⟨hne, hdist⟩, h.2.2.1, h.2.2.2.2.1⟩

/-- Witness for the amended C2 at a paddle of height 0 with velocity
(5, -2): the scan overwrites the vertical velocity with the bot speed cap
and keeps the horizontal component. -/
theorem C2_bot_no_balls_amended_witness :
    ((0 : ℚ) ≤ f32MAX - BOT_PADDLE_SPEED) ∧
    bot_ai [] ⟨3, 0⟩ ⟨5, -2⟩ = ⟨5, BOT_PADDLE_SPEED⟩ :=
  ⟨by norm_num [f32MAX, BOT_PADDLE_SPEED, FRAMERATE],
   C2_bot_no_balls_amended ⟨3, 0⟩ ⟨5, -2⟩
     (by norm_num [f32MAX, BOT_PADDLE_SPEED, FRAMERATE])⟩

/-- A sum of squares of two reals, not both zero, is positive. -/
theorem sum_sq_pos (a b : ℝ) (hz : ¬(a = 0 ∧ b = 0)) : 0 < a ^ 2 + b ^ 2 := by
  rcases not_and_or.mp hz with ha | hb
  · have h1 : 0 < a ^ 2 := by positivity
    nlinarith [sq_nonneg b]
  · have h1 : 0 < b ^ 2 := by positivity
    nlinarith [sq_nonneg a]

/-- Normalizing a nonzero real 2-vector and scaling by a nonnegative
factor yields a vector of norm exactly that factor. -/
theorem normR_dir_scale (a b s : ℝ) (hz : ¬(a = 0 ∧ b = 0)) (hs : 0 ≤ s) :
    normR (a / Real.sqrt (a ^ 2 + b ^ 2) * s,
           b / Real.sqrt (a ^ 2 + b ^ 2) * s) = s := by
  have hq : 0 < a ^ 2 + b ^ 2 := sum_sq_pos a b hz
  have hL : 0 < Real.sqrt (a ^ 2 + b ^ 2) := Real.sqrt_pos.mpr hq
  have hL2 : Real.sqrt (a ^ 2 + b ^ 2) ^ 2 = a ^ 2 + b ^ 2 := Real.sq_sqrt hq.le
  have hsum : (a / Real.sqrt (a ^ 2 + b ^ 2) * s) ^ 2
      + (b / Real.sqrt (a ^ 2 + b ^ 2) * s) ^ 2 = s ^ 2 := by
    field_simp
    ring
  show Real.sqrt ((a / Real.sqrt (a ^ 2 + b ^ 2) * s) ^ 2
      + (b / Real.sqrt (a ^ 2 + b ^ 2) * s) ^ 2) = s
  rw [hsum]
  exact Real.sqrt_sq hs

/-- Counterexample to C3 as stated: the draw `(0, 0)` lies in the claimed
ranges (`gen() = 0.5` twice), yet the assigned velocity is the degenerate
normalization of the zero vector, whose magnitude is not `BALL_SPEED` (in
`f32` the normalization of the zero vector is NaN). -/
theorem C3_zero_draw_degenerate :
    (-1 ≤ (0 : ℚ) ∧ (0 : ℚ) ≤ 1 ∧ -(1 / 2) ≤ (0 : ℚ) ∧ (0 : ℚ) ≤ 1 / 2) ∧
    normR (launch_ball_vel 0 0) ≠ (BALL_SPEED : ℝ) := by
  constructor
  · norm_num
  · have h0 : launch_ball_vel 0 0 = ((0 : ℝ), (0 : ℝ)) := by
      simp [launch_ball_vel]
    rw [h0]
    have h1 : normR ((0 : ℝ), (0 : ℝ)) = 0 := by
      simp [normR]
    rw [h1]
    norm_num [BALL_SPEED, FRAMERATE]

/-- C3 amended: for every random draw `(x, y)` with `x ∈ [-1, 1]` and
`y ∈ [-0.5, 0.5]` other than `(0, 0)`, the assigned launch velocity is the
draw normalized and scaled to `BALL_SPEED`: its magnitude is exactly
`BALL_SPEED` and it is not the zero velocity. -/
theorem C3_launch_speed (x y : ℚ)
    (_hx1 : -1 ≤ x) (_hx2 : x ≤ 1) (_hy1 : -(1 / 2) ≤ y) (_hy2 : y ≤ 1 / 2)
    (hz : ¬(x = 0 ∧ y = 0)) :
    normR (launch_ball_vel x y) = (BALL_SPEED : ℝ) ∧
    launch_ball_vel x y ≠ ((0 : ℝ), (0 : ℝ)) := by
  have hzr : ¬((x : ℝ) = 0 ∧ (y : ℝ) = 0) := by
    intro hc
    exact hz ⟨by exact_mod_cast hc.1, by exact_mod_cast hc.2⟩
  have hs : (0 : ℝ) ≤ (BALL_SPEED : ℝ) := by
    norm_num [BALL_SPEED, FRAMERATE]
  have hnorm : normR (launch_ball_vel x y) = (BALL_SPEED : ℝ) :=
    normR_dir_scale (x : ℝ) (y : ℝ) (BALL_SPEED : ℝ) hzr hs
  refine ⟨hnorm, ?_⟩
  intro hc
  rw [hc] at hnorm
  have h1 : normR ((0 : ℝ), (0 : ℝ)) = 0 := by
    simp [normR]
  rw [h1] at hnorm
  norm_num [BALL_SPEED, FRAMERATE] at hnorm

/-- Witness for the amended C3 at the draw (1, 0): in range, nonzero, and
the launch velocity has magnitude exactly BALL_SPEED and is nonzero. -/
theorem C3_launch_speed_witness :
    (-1 ≤ (1 : ℚ) ∧ (1 : ℚ) ≤ 1 ∧ -(1 / 2) ≤ (0 : ℚ) ∧ (0 : ℚ) ≤ 1 / 2 ∧
      ¬((1 : ℚ) = 0 ∧ (0 : ℚ) = 0)) ∧
    (normR (launch_ball_vel 1 0) = (BALL_SPEED : ℝ) ∧
     launch_ball_vel 1 0 ≠ ((0 : ℝ), (0 : ℝ))) :=
  ⟨by norm_num,
   C3_launch_speed 1 0 (by norm_num) (by norm_num) (by norm_num) (by norm_num)
     (by norm_num)⟩

/-- Counterexample to C4 as stated: a ball whose center coincides with the
paddle's center passes the overlap test, yet the recomputed velocity is
the degenerate normalization of the zero vector, whose magnitude is not
`BALL_SPEED` (in `f32` it is NaN), and no direction through the two
coincident centers exists. -/
theorem C4_center_coincidence_degenerate :
    paddleOverlap ⟨0, 0⟩ ⟨0, 0⟩ ∧
    normR (ball_bounce_paddle ⟨0, 0⟩ ⟨0, 0⟩ (1, 1)) ≠ (BALL_SPEED : ℝ) := by
  have hov : paddleOverlap ⟨0, 0⟩ ⟨0, 0⟩ := by
    norm_num [paddleOverlap, BALL_SIZE, PADDLE_WIDTH, PADDLE_HEIGHT]
  refine ⟨hov, ?_⟩
  have h1 : ball_bounce_paddle ⟨0, 0⟩ ⟨0, 0⟩ (1, 1)
      = paddle_bounce_vel ⟨0, 0⟩ ⟨0, 0⟩ := by
    simp only [ball_bounce_paddle, if_pos hov]
  have h2 : paddle_bounce_vel ⟨0, 0⟩ ⟨0, 0⟩ = ((0 : ℝ), (0 : ℝ)) := by
    simp [paddle_bounce_vel]
  rw [h1, h2]
  have h3 : normR ((0 : ℝ), (0 : ℝ)) = 0 := by
    simp [normR]
  rw [h3]
  norm_num [BALL_SPEED, FRAMERATE]

/-- C4 amended: for every ball overlapping a paddle whose center differs
from the paddle's center, the collision step recomputes the velocity as
`normalize(ballPos - paddlePos) * BALL_SPEED`: the result has magnitude
exactly `BALL_SPEED` for any incoming velocity, and it is a positive
multiple of the vector from the paddle's center through the ball's
center. -/
theorem C4_paddle_bounce (b p : V2) (v : ℝ × ℝ)
    (hov : paddleOverlap b p) (hne : b ≠ p) :
    normR (ball_bounce_paddle b p v) = (BALL_SPEED : ℝ) ∧
    ∃ c : ℝ, 0 < c ∧
      ball_bounce_paddle b p v
        = (c * ((b.x - p.x : ℚ) : ℝ), c * ((b.y - p.y : ℚ) : ℝ)) := by
  have hbp : ball_bounce_paddle b p v = paddle_bounce_vel b p := by
    simp only [ball_bounce_paddle, if_pos hov]
  have hzq : ¬(b.x - p.x = 0 ∧ b.y - p.y = 0) := by
    intro hc
    apply hne
    have hx : b.x = p.x := by linarith [hc.1]
    have hy : b.y = p.y := by linarith [hc.2]
    cases b
    cases p
    simp_all
  have hzr : ¬(((b.x - p.x : ℚ) : ℝ) = 0 ∧ ((b.y - p.y : ℚ) : ℝ) = 0) := by
    intro hc
    exact hzq ⟨by exact_mod_cast hc.1, by exact_mod_cast hc.2⟩
  have hs : (0 : ℝ) ≤ (BALL_SPEED : ℝ) := by
    norm_num [BALL_SPEED, FRAMERATE]
  have hq : 0 < ((b.x - p.x : ℚ) : ℝ) ^ 2 + ((b.y - p.y : ℚ) : ℝ) ^ 2 :=
    sum_sq_pos _ _ hzr
  constructor
  · rw [hbp]
    exact normR_dir_scale _ _ _ hzr hs
  · refine ⟨(BALL_SPEED : ℝ)
      / Real.sqrt (((b.x - p.x : ℚ) : ℝ) ^ 2 + ((b.y - p.y : ℚ) : ℝ) ^ 2),
      ?_, ?_⟩
    · apply div_pos
      · norm_num [BALL_SPEED, FRAMERATE]
      · exact Real.sqrt_pos.mpr hq
    · rw [hbp]
      show paddle_bounce_vel b p = _
      unfold paddle_bounce_vel
      simp only [Prod.mk.injEq]
      constructor <;> ring

/-- Witness for the amended C4: a ball at (3, 4) overlapping a paddle at
the origin bounces with magnitude exactly BALL_SPEED along the
center-to-center direction. -/
theorem C4_paddle_bounce_witness :
    (paddleOverlap ⟨3, 4⟩ ⟨0, 0⟩ ∧ (⟨3, 4⟩ : V2) ≠ ⟨0, 0⟩) ∧
    (normR (ball_bounce_paddle ⟨3, 4⟩ ⟨0, 0⟩ ((0 : ℝ), (0 : ℝ))) = (BALL_SPEED : ℝ) ∧
     ∃ c : ℝ, 0 < c ∧
       ball_bounce_paddle ⟨3, 4⟩ ⟨0, 0⟩ ((0 : ℝ), (0 : ℝ))
         = (c * (((⟨3, 4⟩ : V2).x - (⟨0, 0⟩ : V2).x : ℚ) : ℝ),
            c * (((⟨3, 4⟩ : V2).y - (⟨0, 0⟩ : V2).y : ℚ) : ℝ))) :=
  ⟨⟨by norm_num [paddleOverlap, BALL_SIZE, PADDLE_WIDTH, PADDLE_HEIGHT],
    by
      intro hc
      have hx := congrArg V2.x hc
      norm_num at hx⟩,
   C4_paddle_bounce ⟨3, 4⟩ ⟨0, 0⟩ ((0 : ℝ), (0 : ℝ))
     (by norm_num [paddleOverlap, BALL_SIZE, PADDLE_WIDTH, PADDLE_HEIGHT])
     (by
       intro hc
       have hx := congrArg V2.x hc
       norm_num at hx)⟩

end Pong
